import Mathlib

/-!
Verification of the command-buffer ring protocol client helper
(`gpu::CommandBufferHelper`, `cmd_buffer_helper.cc`).

The helper streams fixed-size command entries into a shared ring buffer
consumed asynchronously by a service.  We embed the helper's state and its
operations shallowly: machine `int32` values become `Int` (every quantity the
theorems touch is kept in ranges where C truncating division/modulus agree
with Lean's), the abstract command-buffer Channel becomes an oracle of
service-state responses consumed one per synchronous poll, and the externally
visible actions (Channel calls, no-op writes into the ring, the fatal log)
are recorded in an event trace.  Wall-clock reads (`clock()`) are modelled by
an explicit `now` argument.
-/

namespace Gpu

/-- A service-state snapshot as reported by the Channel
(`CommandBuffer::State`): the consumed offset, the service-side put offset,
the last token read, the entry capacity and whether an error is set. -/
structure CBState where
  get_offset : Int
  put_offset : Int
  token : Int
  num_entries : Int
  error : Bool
deriving DecidableEq, Repr

/-- The zeroed state cached before any poll of the service. -/
def CBState.zero : CBState :=
  { get_offset := 0, put_offset := 0, token := 0, num_entries := 0, error := false }

/-- Externally visible actions of the helper: calls into the Channel,
writes of no-op padding or token commands into the ring memory, and the
fatal log on a protocol violation. -/
inductive Ev where
  | createTransferBuffer (size : Int)
  | setGetBuffer (id : Int)
  | getStateCall
  | flushCall (put : Int)
  | flushSyncCall (put get : Int)
  | destroyTransferBuffer (id : Int)
  | noopWrite (offset count : Int)
  | tokenWrite (value : Int)
  | fatalLog
deriving DecidableEq, Repr

/-- Whether an event is a call into the Channel (as opposed to a local
write into the ring memory or a log). -/
def Ev.isChannelCall : Ev → Bool
  | .createTransferBuffer _ => true
  | .setGetBuffer _ => true
  | .getStateCall => true
  | .flushCall _ => true
  | .flushSyncCall _ _ => true
  | .destroyTransferBuffer _ => true
  | .noopWrite _ _ => false
  | .tokenWrite _ => false
  | .fatalLog => false

/-- The Channel as seen by a single allocation attempt: the id
`CreateTransferBuffer` would hand back (negative on failure) and the state
snapshot `GetState` would report. -/
structure Chan where
  createId : Int
  stateResp : CBState
deriving DecidableEq, Repr

/-- Client-side helper state (the fields of `CommandBufferHelper`).
`last_state` is the cached `CommandBuffer` state; `get_offset()` and
`last_token_read()` read it, and a synchronous poll refreshes it. -/
structure CommandBufferHelper where
  ring_buffer_id : Int
  ring_buffer_size : Int
  total_entry_count : Int
  immediate_entry_count : Int
  token : Int
  put : Int
  last_put_sent : Int
  usable : Bool
  context_lost : Bool
  flush_automatically : Bool
  flush_generation : Int
  last_flush_time : Int
  last_state : CBState
deriving DecidableEq, Repr

namespace CommandBufferHelper

/-- The constructor's member initializer list. -/
def mk0 : CommandBufferHelper :=
  { ring_buffer_id := -1
    ring_buffer_size := 0
    total_entry_count := 0
    immediate_entry_count := 0
    token := 0
    put := 0
    last_put_sent := 0
    usable := true
    context_lost := false
    flush_automatically := true
    flush_generation := 0
    last_flush_time := 0
    last_state := CBState.zero }

/-- Accessor `get_offset()`: the cached service-consumed offset. -/
def get_offset (h : CommandBufferHelper) : Int := h.last_state.get_offset

/-- Accessor `last_token_read()`: the cached service-acknowledged token. -/
def last_token_read (h : CommandBufferHelper) : Int := h.last_state.token

/-- Accessor `HaveRingBuffer()`: a ring buffer id other than -1 is installed. -/
def HaveRingBuffer (h : CommandBufferHelper) : Bool := h.ring_buffer_id ≠ -1

/-- Modelled from the spec: the auto-flush divisor for the tier used when the
service has fully caught up (the "small" tier of §4.3, flushing small batches
eagerly while idle).  The constant is declared in the helper's header, which
is absent from the sources; the reference core uses one sixteenth of the
buffer for this tier. -/
def kAutoFlushSmall : Int := 16

/-- Modelled from the spec: the auto-flush divisor for the tier used while
the service still has unconsumed work (the "big" tier of §4.3, letting up to
half of the buffer accumulate while busy). -/
def kAutoFlushBig : Int := 2

/-- Modelled from the spec: the largest entry count a single no-op record can
skip (the command header's size field is a 21-bit quantity in the header that
is absent from the sources). -/
def kMaxSize : Int := 2097151

/-- Modelled from the spec: the number of ring entries the token command
occupies (§4.4: inserting a token triggers an allocation of one entry). -/
def kSetTokenEntries : Int := 1

/-- Modelled from the spec: `sizeof(CommandBufferEntry)` — one machine word
(the entry union is declared outside the sources). -/
def kEntrySize : Int := 4

/-- The value `CalcImmediateEntries(waiting_count)` stores into
`immediate_entry_count_`: the number of contiguous entries writable at `put`
right now.  Unusable or unallocated helpers get zero; otherwise the count is
`get - put - 1` when `get > put`, else `capacity - put` minus one slot when
`get == 0`; with automatic flushing enabled the count is further limited so
that a flush is forced once the unflushed backlog reaches the active
tier's fraction of the capacity. -/
def calcImmediate (waiting_count : Int) (h : CommandBufferHelper) : Int :=
  if !h.usable || !h.HaveRingBuffer then 0
  else
    let curr_get := h.get_offset
    let base :=
      if curr_get > h.put then curr_get - h.put - 1
      else h.total_entry_count - h.put - (if curr_get = 0 then 1 else 0)
    if h.flush_automatically then
      let limit := h.total_entry_count /
        (if curr_get = h.last_put_sent then kAutoFlushSmall else kAutoFlushBig)
      let pending :=
        (h.put + h.total_entry_count - h.last_put_sent) % h.total_entry_count
      if pending > 0 ∧ pending ≥ limit then 0
      else
        let limit2 := limit - pending
        let limit3 := if limit2 < waiting_count then waiting_count else limit2
        if base > limit3 then limit3 else base
    else base

/-- `CalcImmediateEntries(waiting_count)`: recomputes the immediate entry
count; no other field is touched. -/
def CalcImmediateEntries (waiting_count : Int) (h : CommandBufferHelper) :
    CommandBufferHelper :=
  { h with immediate_entry_count := calcImmediate waiting_count h }

/-- Modelled from the spec: `ClearUsable()` from the helper's header — the
one-way transition to the unusable state, recomputing the immediate entry
count (which is then zero). -/
def ClearUsable (h : CommandBufferHelper) : CommandBufferHelper :=
  CalcImmediateEntries 0 { h with usable := false }

/-- `SetAutomaticFlushes(enabled)`: toggles the auto-flush policy and
recomputes the immediate entry count. -/
def SetAutomaticFlushes (enabled : Bool) (h : CommandBufferHelper) :
    CommandBufferHelper :=
  CalcImmediateEntries 0 { h with flush_automatically := enabled }

/-- `IsContextLost()`: latches the sticky context-lost flag from the
Channel's last error (`lastErr` models `error::IsError(GetLastError())`)
and reports it. -/
def IsContextLost (lastErr : Bool) (h : CommandBufferHelper) :
    Bool × CommandBufferHelper :=
  if !h.context_lost then
    let h1 := { h with context_lost := lastErr }
    (h1.context_lost, h1)
  else (h.context_lost, h)

/-- `AllocateRingBuffer()`: lazily creates the shared ring via the Channel.
Unusable helpers fail immediately with no Channel call; an already-installed
ring succeeds immediately.  A negative id from `CreateTransferBuffer`, or a
ring larger than the service's reported entry capacity, clears the usable
flag.  On success the put cursor is reset from the polled service state and
the immediate entry count recomputed. -/
def AllocateRingBuffer (ch : Chan) (h : CommandBufferHelper) :
    Bool × CommandBufferHelper × List Ev :=
  if !h.usable then (false, h, [])
  else if h.HaveRingBuffer then (true, h, [])
  else
    let ev0 := Ev.createTransferBuffer h.ring_buffer_size
    if ch.createId < 0 then (false, h.ClearUsable, [ev0])
    else
      let st := ch.stateResp
      let h1 := { h with ring_buffer_id := ch.createId, last_state := st }
      let evs := [ev0, Ev.setGetBuffer ch.createId, Ev.getStateCall]
      let num := h.ring_buffer_size / kEntrySize
      if num > st.num_entries then (false, h1.ClearUsable, evs)
      else
        let h2 := { h1 with total_entry_count := num, put := st.put_offset }
        (true, CalcImmediateEntries 0 h2, evs)

/-- `FreeResources()`: idempotent teardown of the ring region — destroys the
transfer buffer via the Channel only when one is installed. -/
def FreeResources (h : CommandBufferHelper) : CommandBufferHelper × List Ev :=
  if h.HaveRingBuffer then
    (CalcImmediateEntries 0 { h with ring_buffer_id := -1 },
     [Ev.destroyTransferBuffer h.ring_buffer_id])
  else (h, [])

/-- `FlushSync()`: one synchronous poll of the Channel.  Unusable helpers
fail with no Channel call.  Otherwise the put cursor is wrapped at capacity,
the send time recorded, `last_put_sent` updated, the current put handed to
the Channel together with the cached get, the returned service state `r`
cached, and the immediate entry count recomputed; the result is whether the
service reported no error. -/
def FlushSync (now : Int) (r : CBState) (h : CommandBufferHelper) :
    Bool × CommandBufferHelper × List Ev :=
  if !h.usable then (false, h, [])
  else
    let p := if h.put = h.total_entry_count then (0 : Int) else h.put
    (!r.error,
     CalcImmediateEntries 0
       { h with put := p, last_flush_time := now, last_put_sent := p,
                last_state := r, flush_generation := h.flush_generation + 1 },
     [Ev.flushSyncCall p h.get_offset])

/-- `Flush()`: asynchronous flush.  The put cursor is wrapped at capacity
unconditionally; then, only when the helper is usable and there is unsent
work (`last_put_sent != put`), the current put is handed to the Channel,
the send time recorded and the immediate entry count recomputed. -/
def Flush (now : Int) (h : CommandBufferHelper) :
    CommandBufferHelper × List Ev :=
  let p := if h.put = h.total_entry_count then (0 : Int) else h.put
  if h.usable && h.last_put_sent ≠ p then
    (CalcImmediateEntries 0
       { h with put := p, last_flush_time := now, last_put_sent := p,
                flush_generation := h.flush_generation + 1 },
     [Ev.flushCall p])
  else ({ h with put := p }, [])

/-- The do-while loop of `Finish()`: each iteration consumes one service
response; a failed flush aborts with `some false`, a drained buffer
(`put == get`) exits with `some true`, and an exhausted oracle (the service
never drains the buffer within the modelled horizon) yields `none`. -/
def FinishLoop (now : Int) :
    List CBState → CommandBufferHelper →
    Option Bool × CommandBufferHelper × List CBState × List Ev
  | [], h => (none, h, [], [])
  | r :: rs, h =>
    let s := FlushSync now r h
    if s.1 then
      if s.2.1.put = s.2.1.get_offset then (some true, s.2.1, rs, s.2.2)
      else
        let k := FinishLoop now rs s.2.1
        (k.1, k.2.1, k.2.2.1, s.2.2 ++ k.2.2.2)
    else (some false, s.2.1, rs, s.2.2)

/-- `Finish()`: drains the whole buffer.  Unusable helpers report failure at
once; an already-empty buffer (`put == get`) reports success with no Channel
call; otherwise the helper repeatedly flushes synchronously until the
service has consumed everything or a flush fails. -/
def Finish (now : Int) (oracle : List CBState) (h : CommandBufferHelper) :
    Option Bool × CommandBufferHelper × List CBState × List Ev :=
  if !h.usable then (some false, h, oracle, [])
  else if h.put = h.get_offset then (some true, h, oracle, [])
  else FinishLoop now oracle h

/-- Outcome of a `WaitForToken` call. -/
inductive WaitRes where
  | returned
  | fatal
  | flushFailed
  | noFuel
deriving DecidableEq, Repr

/-- The wait loop of `WaitForToken(token)`: while the service's acknowledged
token is below the target, an empty ring (`get == put`) aborts fatally with
the fatal log and no further Channel call; otherwise one synchronous flush
is performed, a failed flush aborting the wait. -/
def WaitForTokenLoop (now t : Int) :
    List CBState → CommandBufferHelper →
    WaitRes × CommandBufferHelper × List CBState × List Ev
  | [], h =>
    if h.last_token_read < t then
      if h.get_offset = h.put then (.fatal, h, [], [.fatalLog])
      else (.noFuel, h, [], [])
    else (.returned, h, [], [])
  | r :: rs, h =>
    if h.last_token_read < t then
      if h.get_offset = h.put then (.fatal, h, r :: rs, [.fatalLog])
      else
        let s := FlushSync now r h
        if s.1 then
          let k := WaitForTokenLoop now t rs s.2.1
          (k.1, k.2.1, k.2.2.1, s.2.2 ++ k.2.2.2)
        else (.flushFailed, s.2.1, rs, s.2.2)
    else (.returned, h, r :: rs, [])

/-- `WaitForToken(token)`: returns immediately on an unusable or unallocated
helper, on a negative token (the sentinel of a failed insertion), or on a
token above the most recently issued one (a stale wait across a wrap);
otherwise enters the wait loop. -/
def WaitForToken (now t : Int) (oracle : List CBState)
    (h : CommandBufferHelper) :
    WaitRes × CommandBufferHelper × List CBState × List Ev :=
  if !h.usable || !h.HaveRingBuffer then (.returned, h, oracle, [])
  else if t < 0 then (.returned, h, oracle, [])
  else if t > h.token then (.returned, h, oracle, [])
  else WaitForTokenLoop now t oracle h

/-- The no-op fill loop of `WaitForAvailableEntries`: writes no-op records
covering `n` entries starting at `put`, in chunks bounded by the largest
size a single command header can carry, and yields the advanced put. -/
def fillNoops (put : Int) : Nat → Int × List Ev
  | 0 => (put, [])
  | Nat.succ n =>
    let skip := min kMaxSize.toNat (Nat.succ n)
    let rest := fillNoops (put + (skip : Int)) (Nat.succ n - skip)
    (rest.1, Ev.noopWrite put (skip : Int) :: rest.2)
termination_by n => n
decreasing_by
  have h1 : 1 ≤ min kMaxSize.toNat (Nat.succ n) := by
    have h2 : (1 : Nat) ≤ kMaxSize.toNat := by decide
    exact le_min h2 (Nat.succ_le_succ (Nat.zero_le n))
  omega

/-- The wrap-wait loop of `WaitForAvailableEntries`: while the cached get
cursor has not yet wrapped into `[1, put]` (that is, while `get > put` or
`get == 0`), flush synchronously and re-observe; a failed flush aborts with
`some false`, an exhausted oracle yields `none`, and `some true` means the
observed get now lies in `[1, put]`. -/
def WrapWaitLoop (now : Int) :
    List CBState → CommandBufferHelper →
    Option Bool × CommandBufferHelper × List CBState × List Ev
  | [], h =>
    if h.get_offset > h.put ∨ h.get_offset = 0 then (none, h, [], [])
    else (some true, h, [], [])
  | r :: rs, h =>
    if h.get_offset > h.put ∨ h.get_offset = 0 then
      let s := FlushSync now r h
      if s.1 then
        let k := WrapWaitLoop now rs s.2.1
        (k.1, k.2.1, k.2.2.1, s.2.2 ++ k.2.2.2)
      else (some false, s.2.1, rs, s.2.2)
    else (some true, h, r :: rs, [])

/-- The availability loop of `WaitForAvailableEntries`: while fewer than
`count` contiguous entries are immediately writable, flush synchronously and
recompute (with `count` as the deadlock-avoiding floor); a failed flush
aborts with `some false`. -/
def EntriesWaitLoop (now count : Int) :
    List CBState → CommandBufferHelper →
    Option Bool × CommandBufferHelper × List CBState × List Ev
  | [], h =>
    if h.immediate_entry_count < count then (none, h, [], [])
    else (some true, h, [], [])
  | r :: rs, h =>
    if h.immediate_entry_count < count then
      let s := FlushSync now r h
      if s.1 then
        let h2 := CalcImmediateEntries count s.2.1
        let k := EntriesWaitLoop now count rs h2
        (k.1, k.2.1, k.2.2.1, s.2.2 ++ k.2.2.2)
      else (some false, s.2.1, rs, s.2.2)
    else (some true, h, r :: rs, [])

/-- The post-wrap tail of `WaitForAvailableEntries`: recompute the writable
count; if short, try a lightweight asynchronous flush and recompute; if
still short, spin on the synchronous flush-and-refresh loop. -/
def AcquireEntries (now count : Int) (oracle : List CBState)
    (h : CommandBufferHelper) :
    Option Bool × CommandBufferHelper × List CBState × List Ev :=
  let h1 := CalcImmediateEntries count h
  if h1.immediate_entry_count < count then
    let f := Flush now h1
    let h2 := CalcImmediateEntries count f.1
    if h2.immediate_entry_count < count then
      let k := EntriesWaitLoop now count oracle h2
      (k.1, k.2.1, k.2.2.1, f.2 ++ k.2.2.2)
    else (some true, h2, oracle, f.2)
  else (some true, h1, oracle, [])

/-- Outcome of a `WaitForAvailableEntries` call. -/
inductive AvailRes where
  | done
  | unusable
  | flushFailed
  | noFuel
deriving DecidableEq, Repr

/-- Conversion from the inner loops' three-valued outcome. -/
def toAvail : Option Bool → AvailRes
  | some true => .done
  | some false => .flushFailed
  | none => .noFuel

/-- `WaitForAvailableEntries(count)`: allocates the ring lazily and returns
at once if the helper is unusable.  When `put + count` exceeds the physical
capacity, first waits (synchronous flush-and-refresh) until the service's
get cursor has wrapped into `[1, put]`, then fills the tail from `put` to
the physical end with no-op records and resets `put` to 0; in all cases it
then waits until `count` contiguous entries are immediately writable. -/
def WaitForAvailableEntries (now : Int) (ch : Chan) (count : Int)
    (oracle : List CBState) (h : CommandBufferHelper) :
    AvailRes × CommandBufferHelper × List CBState × List Ev :=
  let a := AllocateRingBuffer ch h
  let h0 := a.2.1
  if !h0.usable then (.unusable, h0, oracle, a.2.2)
  else if h0.put + count > h0.total_entry_count then
    match WrapWaitLoop now oracle h0 with
    | (some true, h1, rest, evW) =>
      let f := fillNoops h1.put (h1.total_entry_count - h1.put).toNat
      let k := AcquireEntries now count rest { h1 with put := 0 }
      (toAvail k.1, k.2.1, k.2.2.1, a.2.2 ++ evW ++ f.2 ++ k.2.2.2)
    | (some false, h1, rest, evW) => (.flushFailed, h1, rest, a.2.2 ++ evW)
    | (none, h1, rest, evW) => (.noFuel, h1, rest, a.2.2 ++ evW)
  else
    let k := AcquireEntries now count oracle h0
    (toAvail k.1, k.2.1, k.2.2.1, a.2.2 ++ k.2.2.2)

/-- Modelled from the spec: `GetSpace`/`GetCmdSpace` live in the helper's
header, which is absent from the sources.  Following §4.3, the reservation
waits for `entries` contiguous slots, yields no slot when the helper has
become unusable (callers must check before writing), and otherwise returns
the offset `put` and advances the put cursor past the reserved slots. -/
def GetSpace (now : Int) (ch : Chan) (entries : Int)
    (oracle : List CBState) (h : CommandBufferHelper) :
    Option Int × CommandBufferHelper × List CBState × List Ev :=
  let w := WaitForAvailableEntries now ch entries oracle h
  let h1 := w.2.1
  if !h1.usable then (none, h1, w.2.2.1, w.2.2.2)
  else (some h1.put, { h1 with put := h1.put + entries }, w.2.2.1, w.2.2.2)

/-- The body of `InsertToken()` after the lazy allocation attempt: `h0` is
the post-allocation helper and `evA` the allocation's Channel events.  An
unusable helper returns the current token unchanged; otherwise the token
advances as a 31-bit counter, space for the token command is reserved and
the command written, and — when the counter has wrapped to 0 — a full
synchronous drain (`Finish`) runs before the new token is returned. -/
def InsertTokenCont (now : Int) (ch : Chan) (oracle : List CBState)
    (evA : List Ev) (h0 : CommandBufferHelper) :
    Int × CommandBufferHelper × List CBState × List Ev :=
  if !h0.usable then (h0.token, h0, oracle, evA)
  else
    let h1 := { h0 with token := (h0.token + 1) % 2147483648 }
    let g := GetSpace now ch kSetTokenEntries oracle h1
    match g.1 with
    | none => (g.2.1.token, g.2.1, g.2.2.1, evA ++ g.2.2.2)
    | some _ =>
      let h2 := g.2.1
      let evs0 := evA ++ g.2.2.2 ++ [Ev.tokenWrite h2.token]
      if h2.token = 0 then
        let f := Finish now g.2.2.1 h2
        (f.2.1.token, f.2.1, f.2.2.1, evs0 ++ f.2.2.2)
      else (h2.token, h2, g.2.2.1, evs0)

/-- `InsertToken()`: the lazy allocation attempt followed by the token
advance, write and possible wrap-drain of `InsertTokenCont`. -/
def InsertToken (now : Int) (ch : Chan) (oracle : List CBState)
    (h : CommandBufferHelper) :
    Int × CommandBufferHelper × List CBState × List Ev :=
  let a := AllocateRingBuffer ch h
  InsertTokenCont now ch oracle a.2.2 a.2.1

/-- The fields every flush-path operation leaves untouched: usability, the
token counter, the installed ring id, the capacity and the auto-flush mode. -/
def Frame (h h' : CommandBufferHelper) : Prop :=
  h'.usable = h.usable ∧ h'.token = h.token ∧
  h'.ring_buffer_id = h.ring_buffer_id ∧
  h'.total_entry_count = h.total_entry_count ∧
  h'.flush_automatically = h.flush_automatically

/-- The wrapped put value a flush sends: put, or 0 when put sits exactly at
capacity. -/
def wrapPut (h : CommandBufferHelper) : Int :=
  if h.put = h.total_entry_count then (0 : Int) else h.put

/-- Scenario A of the spec: capacity 8, three entries reserved and flushed
(`put = 3`, `last_put_sent = 3`), the service's get refreshed to 3; the
automatic-flush limiter is disabled so that the raw writable count is
reported. -/
def scenarioA : CommandBufferHelper :=
  { mk0 with ring_buffer_id := 1, total_entry_count := 8, put := 3,
             last_put_sent := 3, flush_automatically := false,
             last_state := { CBState.zero with get_offset := 3 } }

/-- An auto-flushing helper whose service has fully caught up
(`get == last_put_sent`) with a backlog of 2 pending entries out of 32. -/
def idleBacklog : CommandBufferHelper :=
  { mk0 with ring_buffer_id := 1, total_entry_count := 32, put := 2,
             last_put_sent := 0,
             last_state := { CBState.zero with get_offset := 0 } }

/-- The same helper as `idleBacklog` except the service has not caught up
(`get != last_put_sent`), with the identical backlog of 2 pending
entries. -/
def busyBacklog : CommandBufferHelper :=
  { idleBacklog with last_state := { CBState.zero with get_offset := 1 } }

/-- A usable helper with installed ring, mid-stream: capacity 8, put 2,
one entry consumed by the service. -/
def liveHelper : CommandBufferHelper :=
  { mk0 with ring_buffer_id := 1, total_entry_count := 8, put := 2,
             last_put_sent := 2,
             last_state := { CBState.zero with get_offset := 1 } }

/-- A helper already marked unusable while unsent work remains
(`last_put_sent != put`). -/
def deadHelper : CommandBufferHelper :=
  { mk0 with usable := false, ring_buffer_id := 1, total_entry_count := 8,
             put := 2, last_put_sent := 0 }

/-- A service response reporting an error. -/
def errResp : CBState := { CBState.zero with error := true }

/-- A Channel that hands out transfer-buffer id 1 and a zeroed state. -/
def okChan : Chan := { createId := 1, stateResp := CBState.zero }

/-- A Channel whose region creation fails (negative id). -/
def badChan : Chan := { createId := -1, stateResp := CBState.zero }

/-- A freshly constructed helper sized for 1024 bytes, before any
allocation. -/
def freshHelper : CommandBufferHelper := { mk0 with ring_buffer_size := 1024 }

/-- A helper whose buffer the service has fully consumed (`put == get`). -/
def drainedHelper : CommandBufferHelper :=
  { mk0 with ring_buffer_id := 1, total_entry_count := 8, put := 2,
             last_put_sent := 2,
             last_state := { CBState.zero with get_offset := 2 } }

/-- A usable helper with two unsent entries (`last_put_sent != put`). -/
def sendHelper : CommandBufferHelper :=
  { mk0 with ring_buffer_id := 1, total_entry_count := 8, put := 2,
             last_put_sent := 0 }

/-- A live helper whose most recently issued token is 3. -/
def issuedThree : CommandBufferHelper := { liveHelper with token := 3 }

/-- A helper waiting on token 1 that the service never acknowledged while
the ring is empty (`get == put == 0`). -/
def waitingEmpty : CommandBufferHelper :=
  { mk0 with ring_buffer_id := 1, total_entry_count := 8, token := 1 }

/-- Scenario B of the spec: capacity 8, `put = 6`, the service's get still
ahead at 7, so a reservation of 4 entries must wait before padding. -/
def wrapHelper : CommandBufferHelper :=
  { mk0 with ring_buffer_id := 1, total_entry_count := 8, put := 6,
             last_put_sent := 6, flush_automatically := false,
             last_state := { CBState.zero with get_offset := 7 } }

/-- A service response whose get has wrapped to 2. -/
def g2resp : CBState := { CBState.zero with get_offset := 2 }

end CommandBufferHelper

end Gpu

/-! Frame and unfolding lemmas shared by the claim theorems. -/

namespace Gpu

namespace CommandBufferHelper

theorem Frame.rfl' (h : CommandBufferHelper) : Frame h h :=
  ⟨rfl, rfl, rfl, rfl, rfl⟩

theorem Frame.comp {h h' h'' : CommandBufferHelper}
    (a : Frame h h') (b : Frame h' h'') : Frame h h'' := by
  obtain ⟨a1, a2, a3, a4, a5⟩ := a
  obtain ⟨b1, b2, b3, b4, b5⟩ := b
  exact ⟨b1.trans a1, b2.trans a2, b3.trans a3, b4.trans a4, b5.trans a5⟩

@[simp] theorem calc_usable (w : Int) (h : CommandBufferHelper) :
    (CalcImmediateEntries w h).usable = h.usable := rfl

@[simp] theorem calc_put (w : Int) (h : CommandBufferHelper) :
    (CalcImmediateEntries w h).put = h.put := rfl

@[simp] theorem calc_token (w : Int) (h : CommandBufferHelper) :
    (CalcImmediateEntries w h).token = h.token := rfl

@[simp] theorem calc_total (w : Int) (h : CommandBufferHelper) :
    (CalcImmediateEntries w h).total_entry_count = h.total_entry_count := rfl

@[simp] theorem calc_last_put_sent (w : Int) (h : CommandBufferHelper) :
    (CalcImmediateEntries w h).last_put_sent = h.last_put_sent := rfl

@[simp] theorem calc_last_state (w : Int) (h : CommandBufferHelper) :
    (CalcImmediateEntries w h).last_state = h.last_state := rfl

@[simp] theorem calc_get_offset (w : Int) (h : CommandBufferHelper) :
    (CalcImmediateEntries w h).get_offset = h.get_offset := rfl

@[simp] theorem calc_last_token_read (w : Int) (h : CommandBufferHelper) :
    (CalcImmediateEntries w h).last_token_read = h.last_token_read := rfl

@[simp] theorem calc_ring_buffer_id (w : Int) (h : CommandBufferHelper) :
    (CalcImmediateEntries w h).ring_buffer_id = h.ring_buffer_id := rfl

@[simp] theorem calc_HaveRingBuffer (w : Int) (h : CommandBufferHelper) :
    (CalcImmediateEntries w h).HaveRingBuffer = h.HaveRingBuffer := rfl

@[simp] theorem calc_flush_automatically (w : Int) (h : CommandBufferHelper) :
    (CalcImmediateEntries w h).flush_automatically = h.flush_automatically := rfl

@[simp] theorem calc_immediate (w : Int) (h : CommandBufferHelper) :
    (CalcImmediateEntries w h).immediate_entry_count = calcImmediate w h := rfl

theorem calc_Frame (w : Int) (h : CommandBufferHelper) :
    Frame h (CalcImmediateEntries w h) := ⟨rfl, rfl, rfl, rfl, rfl⟩

/-- An unusable helper fails a synchronous flush at once, with no Channel
call and no state change. -/
theorem FlushSync_unusable (now : Int) (r : CBState) (h : CommandBufferHelper)
    (hu : h.usable = false) : FlushSync now r h = (false, h, []) := by
  simp [FlushSync, hu]

/-- A usable helper's synchronous flush: one Channel call carrying the
wrapped put and the previously cached get, the response cached, the
writable count recomputed, success iff the service reported no error. -/
theorem FlushSync_usable_eq (now : Int) (r : CBState) (h : CommandBufferHelper)
    (hu : h.usable = true) :
    FlushSync now r h =
      (!r.error,
       CalcImmediateEntries 0
         { h with put := wrapPut h, last_flush_time := now,
                  last_put_sent := wrapPut h, last_state := r,
                  flush_generation := h.flush_generation + 1 },
       [Ev.flushSyncCall (wrapPut h) h.get_offset]) := by
  simp [FlushSync, hu, wrapPut]

theorem FlushSync_Frame (now : Int) (r : CBState) (h : CommandBufferHelper) :
    Frame h (FlushSync now r h).2.1 := by
  by_cases hu : h.usable
  · rw [FlushSync_usable_eq now r h hu]
    exact ⟨rfl, rfl, rfl, rfl, rfl⟩
  · rw [FlushSync_unusable now r h (by simpa using hu)]
    exact Frame.rfl' h

theorem FlushSync_events (now : Int) (r : CBState) (h : CommandBufferHelper) :
    ∀ e ∈ (FlushSync now r h).2.2, e.isChannelCall = true := by
  by_cases hu : h.usable
  · rw [FlushSync_usable_eq now r h hu]
    intro e he
    simp only [List.mem_singleton] at he
    subst he; rfl
  · rw [FlushSync_unusable now r h (by simpa using hu)]
    intro e he; simp at he

theorem FlushSync_ok (now : Int) (r : CBState) (h : CommandBufferHelper)
    (hu : h.usable = true) : (FlushSync now r h).1 = !r.error := by
  rw [FlushSync_usable_eq now r h hu]

theorem FlushSync_cached (now : Int) (r : CBState) (h : CommandBufferHelper)
    (hu : h.usable = true) : (FlushSync now r h).2.1.last_state = r := by
  rw [FlushSync_usable_eq now r h hu]; rfl

theorem FlushSync_put (now : Int) (r : CBState) (h : CommandBufferHelper)
    (hu : h.usable = true) : (FlushSync now r h).2.1.put = wrapPut h := by
  rw [FlushSync_usable_eq now r h hu]; rfl

/-- A flush with no unsent work (after put normalization) performs no
Channel call and changes nothing but the put wrap. -/
theorem Flush_elide (now : Int) (h : CommandBufferHelper)
    (he : h.last_put_sent = wrapPut h) :
    Flush now h = ({ h with put := wrapPut h }, []) := by
  simp [Flush, wrapPut] at he ⊢
  intro _
  exact he

/-- A flush on a usable helper with unsent work: one asynchronous Channel
call carrying the wrapped put, the send time recorded, `last_put_sent`
advanced, the writable count recomputed. -/
theorem Flush_send (now : Int) (h : CommandBufferHelper)
    (hu : h.usable = true) (hw : h.last_put_sent ≠ wrapPut h) :
    Flush now h =
      (CalcImmediateEntries 0
         { h with put := wrapPut h, last_flush_time := now,
                  last_put_sent := wrapPut h,
                  flush_generation := h.flush_generation + 1 },
       [Ev.flushCall (wrapPut h)]) := by
  simp [Flush, wrapPut] at hw ⊢
  simp [hu, hw]

theorem Flush_Frame (now : Int) (h : CommandBufferHelper) :
    Frame h (Flush now h).1 := by
  by_cases hw : h.last_put_sent = wrapPut h
  · rw [Flush_elide now h hw]; exact ⟨rfl, rfl, rfl, rfl, rfl⟩
  · by_cases hu : h.usable
    · rw [Flush_send now h hu hw]; exact ⟨rfl, rfl, rfl, rfl, rfl⟩
    · have : Flush now h = ({ h with put := wrapPut h }, []) := by
        simp [Flush, wrapPut]
        intro hu'
        exact absurd hu' (by simpa using hu)
      rw [this]; exact ⟨rfl, rfl, rfl, rfl, rfl⟩

theorem FinishLoop_Frame (now : Int) :
    ∀ (oracle : List CBState) (h : CommandBufferHelper),
    Frame h (FinishLoop now oracle h).2.1 := by
  intro oracle
  induction oracle with
  | nil => intro h; exact Frame.rfl' h
  | cons r rs ih =>
    intro h
    simp only [FinishLoop]
    split
    · split
      · exact FlushSync_Frame now r h
      · exact (FlushSync_Frame now r h).comp (ih _)
    · exact FlushSync_Frame now r h

/-- When the `Finish` loop reports success, the buffer is drained: the put
cursor equals the service's consumed offset. -/
theorem FinishLoop_drained (now : Int) :
    ∀ (oracle : List CBState) (h h' : CommandBufferHelper)
      (rest : List CBState) (evs : List Ev),
    FinishLoop now oracle h = (some true, h', rest, evs) →
    h'.put = h'.get_offset := by
  intro oracle
  induction oracle with
  | nil =>
    intro h h' rest evs he
    simp only [FinishLoop, Prod.mk.injEq] at he
    exact absurd he.1 (by simp)
  | cons r rs ih =>
    intro h h' rest evs he
    simp only [FinishLoop] at he
    split at he
    · split at he
      · simp only [Prod.mk.injEq] at he
        rw [← he.2.1]
        assumption
      · simp only [Prod.mk.injEq] at he
        obtain ⟨h1, h2, h3, h4⟩ := he
        apply ih (FlushSync now r h).2.1 h'
          (FinishLoop now rs (FlushSync now r h).2.1).2.2.1
          (FinishLoop now rs (FlushSync now r h).2.1).2.2.2
        rw [← h1, ← h2]
    · simp only [Prod.mk.injEq] at he
      exact absurd he.1 (by simp)

/-- When the `Finish` loop aborts, some synchronous flush reported an
error. -/
theorem FinishLoop_failed_first (now : Int) (r : CBState)
    (rs : List CBState) (h : CommandBufferHelper)
    (hu : h.usable = true) (he : r.error = true) :
    FinishLoop now (r :: rs) h =
      (some false, (FlushSync now r h).2.1, rs, (FlushSync now r h).2.2) := by
  simp only [FinishLoop]
  rw [FlushSync_ok now r h hu] at *
  simp [he, FlushSync_ok now r h hu]

theorem FlushSync_usable_of_ok (now : Int) (r : CBState)
    (h : CommandBufferHelper) (hk : (FlushSync now r h).1 = true) :
    h.usable = true := by
  cases hhu : h.usable with
  | false =>
    rw [FlushSync_unusable now r h hhu] at hk
    exact absurd hk (by simp)
  | true => rfl

theorem FlushSync_put_bound (now : Int) (r : CBState)
    (h : CommandBufferHelper) (h0 : 0 ≤ h.put)
    (h1 : h.put ≤ h.total_entry_count) :
    0 ≤ (FlushSync now r h).2.1.put ∧
      (FlushSync now r h).2.1.put ≤ (FlushSync now r h).2.1.total_entry_count := by
  by_cases hu : h.usable
  · rw [FlushSync_usable_eq now r h hu]
    simp only [calc_put, calc_total]
    unfold wrapPut
    split <;> constructor <;> omega
  · rw [FlushSync_unusable now r h (by simpa using hu)]
    exact ⟨h0, h1⟩

theorem WaitForTokenLoop_Frame (now t : Int) :
    ∀ (oracle : List CBState) (h : CommandBufferHelper),
    Frame h (WaitForTokenLoop now t oracle h).2.1 := by
  intro oracle
  induction oracle with
  | nil =>
    intro h
    simp only [WaitForTokenLoop]
    split
    · split <;> exact Frame.rfl' h
    · exact Frame.rfl' h
  | cons r rs ih =>
    intro h
    simp only [WaitForTokenLoop]
    split
    · split
      · exact Frame.rfl' h
      · split
        · exact (FlushSync_Frame now r h).comp (ih _)
        · exact FlushSync_Frame now r h
    · exact Frame.rfl' h

theorem WrapWaitLoop_Frame (now : Int) :
    ∀ (oracle : List CBState) (h : CommandBufferHelper),
    Frame h (WrapWaitLoop now oracle h).2.1 := by
  intro oracle
  induction oracle with
  | nil =>
    intro h
    simp only [WrapWaitLoop]
    split <;> exact Frame.rfl' h
  | cons r rs ih =>
    intro h
    simp only [WrapWaitLoop]
    split
    · split
      · exact (FlushSync_Frame now r h).comp (ih _)
      · exact FlushSync_Frame now r h
    · exact Frame.rfl' h

theorem EntriesWaitLoop_Frame (now count : Int) :
    ∀ (oracle : List CBState) (h : CommandBufferHelper),
    Frame h (EntriesWaitLoop now count oracle h).2.1 := by
  intro oracle
  induction oracle with
  | nil =>
    intro h
    simp only [EntriesWaitLoop]
    split <;> exact Frame.rfl' h
  | cons r rs ih =>
    intro h
    simp only [EntriesWaitLoop]
    split
    · split
      · exact ((FlushSync_Frame now r h).comp
          (calc_Frame count (FlushSync now r h).2.1)).comp (ih _)
      · exact FlushSync_Frame now r h
    · exact Frame.rfl' h

theorem AcquireEntries_Frame (now count : Int) (oracle : List CBState)
    (h : CommandBufferHelper) :
    Frame h (AcquireEntries now count oracle h).2.1 := by
  simp only [AcquireEntries]
  split
  · split
    · exact ((calc_Frame count h).comp
        ((Flush_Frame now (CalcImmediateEntries count h)).comp
          (calc_Frame count (Flush now (CalcImmediateEntries count h)).1))).comp
        (EntriesWaitLoop_Frame now count oracle _)
    · exact ((calc_Frame count h).comp
        (Flush_Frame now (CalcImmediateEntries count h))).comp
        (calc_Frame count (Flush now (CalcImmediateEntries count h)).1)
  · exact calc_Frame count h

/-- On a usable helper with the ring installed, lazy allocation is a no-op
success with no Channel call. -/
theorem AllocateRingBuffer_noop (ch : Chan) (h : CommandBufferHelper)
    (hu : h.usable = true) (hr : h.HaveRingBuffer = true) :
    AllocateRingBuffer ch h = (true, h, []) := by
  simp [AllocateRingBuffer, hu, hr]

theorem WaitForAvailableEntries_Frame (now : Int) (ch : Chan) (count : Int)
    (oracle : List CBState) (h : CommandBufferHelper)
    (hu : h.usable = true) (hr : h.HaveRingBuffer = true) :
    Frame h (WaitForAvailableEntries now ch count oracle h).2.1 := by
  simp only [WaitForAvailableEntries, AllocateRingBuffer_noop ch h hu hr]
  simp only [hu]
  split
  · simp_all
  · split
    · split
      · next heq =>
        have hw := WrapWaitLoop_Frame now oracle h
        rw [heq] at hw
        refine hw.comp (Frame.comp ⟨rfl, rfl, rfl, rfl, rfl⟩ ?_)
        exact AcquireEntries_Frame now count _ _
      · next heq =>
        have hw := WrapWaitLoop_Frame now oracle h
        rw [heq] at hw
        exact hw
      · next heq =>
        have hw := WrapWaitLoop_Frame now oracle h
        rw [heq] at hw
        exact hw
    · exact AcquireEntries_Frame now count oracle h

theorem AllocateRingBuffer_unusable (ch : Chan) (h : CommandBufferHelper)
    (hu : h.usable = false) : AllocateRingBuffer ch h = (false, h, []) := by
  simp [AllocateRingBuffer, hu]

theorem AllocateRingBuffer_createFail (ch : Chan) (h : CommandBufferHelper)
    (hu : h.usable = true) (hr : h.HaveRingBuffer = false)
    (hc : ch.createId < 0) :
    AllocateRingBuffer ch h =
      (false, h.ClearUsable,
       [Ev.createTransferBuffer h.ring_buffer_size]) := by
  simp [AllocateRingBuffer, hu, hr, hc]

theorem AllocateRingBuffer_tooSmall (ch : Chan) (h : CommandBufferHelper)
    (hu : h.usable = true) (hr : h.HaveRingBuffer = false)
    (hc : ¬ch.createId < 0)
    (hn : h.ring_buffer_size / kEntrySize > ch.stateResp.num_entries) :
    AllocateRingBuffer ch h =
      (false,
       ({ h with ring_buffer_id := ch.createId,
                 last_state := ch.stateResp } : CommandBufferHelper).ClearUsable,
       [Ev.createTransferBuffer h.ring_buffer_size,
        Ev.setGetBuffer ch.createId, Ev.getStateCall]) := by
  simp [AllocateRingBuffer, hu, hr, hc, hn]

theorem AllocateRingBuffer_success (ch : Chan) (h : CommandBufferHelper)
    (hu : h.usable = true) (hr : h.HaveRingBuffer = false)
    (hc : ¬ch.createId < 0)
    (hn : ¬h.ring_buffer_size / kEntrySize > ch.stateResp.num_entries) :
    AllocateRingBuffer ch h =
      (true,
       CalcImmediateEntries 0
         { h with ring_buffer_id := ch.createId,
                  last_state := ch.stateResp,
                  total_entry_count := h.ring_buffer_size / kEntrySize,
                  put := ch.stateResp.put_offset },
       [Ev.createTransferBuffer h.ring_buffer_size,
        Ev.setGetBuffer ch.createId, Ev.getStateCall]) := by
  simp [AllocateRingBuffer, hu, hr, hc, hn]

theorem AllocateRingBuffer_token (ch : Chan) (h : CommandBufferHelper) :
    (AllocateRingBuffer ch h).2.1.token = h.token := by
  cases hu : h.usable with
  | false => rw [AllocateRingBuffer_unusable ch h hu]
  | true =>
    cases hr : h.HaveRingBuffer with
    | true => rw [AllocateRingBuffer_noop ch h hu hr]
    | false =>
      by_cases hc : ch.createId < 0
      · rw [AllocateRingBuffer_createFail ch h hu hr hc]; rfl
      · by_cases hn : h.ring_buffer_size / kEntrySize > ch.stateResp.num_entries
        · rw [AllocateRingBuffer_tooSmall ch h hu hr hc hn]; rfl
        · rw [AllocateRingBuffer_success ch h hu hr hc hn]; rfl

/-- A helper still usable after lazy allocation has the ring installed. -/
theorem AllocateRingBuffer_ring (ch : Chan) (h : CommandBufferHelper)
    (hu0 : (AllocateRingBuffer ch h).2.1.usable = true) :
    (AllocateRingBuffer ch h).2.1.HaveRingBuffer = true := by
  cases hu : h.usable with
  | false => rw [AllocateRingBuffer_unusable ch h hu] at hu0 ⊢; simp_all
  | true =>
    cases hr : h.HaveRingBuffer with
    | true => rw [AllocateRingBuffer_noop ch h hu hr]; exact hr
    | false =>
      by_cases hc : ch.createId < 0
      · rw [AllocateRingBuffer_createFail ch h hu hr hc] at hu0
        exact absurd hu0 (by simp [ClearUsable])
      · by_cases hn : h.ring_buffer_size / kEntrySize > ch.stateResp.num_entries
        · rw [AllocateRingBuffer_tooSmall ch h hu hr hc hn] at hu0
          exact absurd hu0 (by simp [ClearUsable])
        · rw [AllocateRingBuffer_success ch h hu hr hc hn]
          have hne : ch.createId ≠ -1 := by omega
          simp [calc_HaveRingBuffer, HaveRingBuffer, hne]

theorem Finish_Frame (now : Int) (oracle : List CBState)
    (h : CommandBufferHelper) : Frame h (Finish now oracle h).2.1 := by
  unfold Finish
  split
  · exact Frame.rfl' h
  · split
    · exact Frame.rfl' h
    · exact FinishLoop_Frame now oracle h

theorem WaitForAvailableEntries_usable (now : Int) (ch : Chan) (count : Int)
    (oracle : List CBState) (h : CommandBufferHelper)
    (hu : h.usable = true) (hr : h.HaveRingBuffer = true) :
    (WaitForAvailableEntries now ch count oracle h).2.1.usable = true := by
  rw [(WaitForAvailableEntries_Frame now ch count oracle h hu hr).1]
  exact hu

theorem WaitForAvailableEntries_token (now : Int) (ch : Chan) (count : Int)
    (oracle : List CBState) (h : CommandBufferHelper)
    (hu : h.usable = true) (hr : h.HaveRingBuffer = true) :
    (WaitForAvailableEntries now ch count oracle h).2.1.token = h.token :=
  (WaitForAvailableEntries_Frame now ch count oracle h hu hr).2.1

/-- On a usable helper with the ring installed, a space reservation always
yields a slot: the offset is the post-wait put cursor, which then advances
past the reserved entries. -/
theorem GetSpace_usable_eq (now : Int) (ch : Chan) (entries : Int)
    (oracle : List CBState) (h : CommandBufferHelper)
    (hu : h.usable = true) (hr : h.HaveRingBuffer = true) :
    GetSpace now ch entries oracle h =
      (some (WaitForAvailableEntries now ch entries oracle h).2.1.put,
       { (WaitForAvailableEntries now ch entries oracle h).2.1 with
           put := (WaitForAvailableEntries now ch entries oracle h).2.1.put
                    + entries },
       (WaitForAvailableEntries now ch entries oracle h).2.2.1,
       (WaitForAvailableEntries now ch entries oracle h).2.2.2) := by
  have hw := WaitForAvailableEntries_usable now ch entries oracle h hu hr
  unfold GetSpace
  simp [hw]

/-- Canonical unfolding of the `InsertToken` continuation on a usable helper
with the ring installed: the token advances as a 31-bit counter, space for
the token command is reserved and the command written, and on a wrap to 0
the whole result is that of the `Finish` drain run from the post-write
state. -/
theorem InsertTokenCont_eq (now : Int) (ch : Chan) (oracle : List CBState)
    (evA : List Ev) (h : CommandBufferHelper) (hu : h.usable = true)
    (hr : h.HaveRingBuffer = true) :
    InsertTokenCont now ch oracle evA h =
      (let h1 := { h with token := (h.token + 1) % 2147483648 }
       let w := WaitForAvailableEntries now ch kSetTokenEntries oracle h1
       let h2 := { w.2.1 with put := w.2.1.put + kSetTokenEntries }
       let evs0 := evA ++ w.2.2.2 ++ [Ev.tokenWrite ((h.token + 1) % 2147483648)]
       if (h.token + 1) % 2147483648 = 0 then
         let f := Finish now w.2.2.1 h2
         (f.2.1.token, f.2.1, f.2.2.1, evs0 ++ f.2.2.2)
       else ((h.token + 1) % 2147483648, h2, w.2.2.1, evs0)) := by
  obtain ⟨rid, rsz, tot, imm, tok, pt, lps, us, cl, fa, fg, lft, ls⟩ := h
  simp only at hu hr
  subst hu
  have hu1 : (⟨rid, rsz, tot, imm, (tok + 1) % 2147483648, pt, lps, true,
      cl, fa, fg, lft, ls⟩ : CommandBufferHelper).usable = true := rfl
  have hr1 : (⟨rid, rsz, tot, imm, (tok + 1) % 2147483648, pt, lps, true,
      cl, fa, fg, lft, ls⟩ : CommandBufferHelper).HaveRingBuffer = true := hr
  have htk := WaitForAvailableEntries_token now ch kSetTokenEntries oracle
    ⟨rid, rsz, tot, imm, (tok + 1) % 2147483648, pt, lps, true,
      cl, fa, fg, lft, ls⟩ hu1 hr1
  unfold InsertTokenCont
  dsimp only
  rw [GetSpace_usable_eq now ch kSetTokenEntries oracle
    ⟨rid, rsz, tot, imm, (tok + 1) % 2147483648, pt, lps, true,
      cl, fa, fg, lft, ls⟩ hu1 hr1]
  dsimp only
  simp only [htk]
  simp

/-- Canonical unfolding of `InsertToken` on a usable helper with the ring
installed (the lazy allocation is then a no-op). -/
theorem InsertToken_live_eq (now : Int) (ch : Chan) (oracle : List CBState)
    (h : CommandBufferHelper) (hu : h.usable = true)
    (hr : h.HaveRingBuffer = true) :
    InsertToken now ch oracle h =
      (let h1 := { h with token := (h.token + 1) % 2147483648 }
       let w := WaitForAvailableEntries now ch kSetTokenEntries oracle h1
       let h2 := { w.2.1 with put := w.2.1.put + kSetTokenEntries }
       let evs0 := w.2.2.2 ++ [Ev.tokenWrite ((h.token + 1) % 2147483648)]
       if (h.token + 1) % 2147483648 = 0 then
         let f := Finish now w.2.2.1 h2
         (f.2.1.token, f.2.1, f.2.2.1, evs0 ++ f.2.2.2)
       else ((h.token + 1) % 2147483648, h2, w.2.2.1, evs0)) := by
  unfold InsertToken
  rw [AllocateRingBuffer_noop ch h hu hr]
  dsimp only
  rw [InsertTokenCont_eq now ch oracle [] h hu hr]
  simp

/-- The token returned by `InsertToken` whenever the helper is usable after
the allocation attempt: the 31-bit advance of the previous token, also
recorded in the resulting state. -/
theorem InsertToken_val (now : Int) (ch : Chan) (oracle : List CBState)
    (h : CommandBufferHelper)
    (hu0 : (AllocateRingBuffer ch h).2.1.usable = true) :
    (InsertToken now ch oracle h).1 = (h.token + 1) % 2147483648 ∧
    (InsertToken now ch oracle h).2.1.token = (h.token + 1) % 2147483648 := by
  have hr0 := AllocateRingBuffer_ring ch h hu0
  have ht0 := AllocateRingBuffer_token ch h
  unfold InsertToken
  dsimp only
  rw [InsertTokenCont_eq now ch oracle (AllocateRingBuffer ch h).2.2
    (AllocateRingBuffer ch h).2.1 hu0 hr0]
  rw [ht0]
  have hu1 : ({ (AllocateRingBuffer ch h).2.1 with
      token := (h.token + 1) % 2147483648 } : CommandBufferHelper).usable
      = true := hu0
  have hr1 : ({ (AllocateRingBuffer ch h).2.1 with
      token := (h.token + 1) % 2147483648 } : CommandBufferHelper).HaveRingBuffer
      = true := hr0
  have htk := WaitForAvailableEntries_token now ch kSetTokenEntries oracle
    { (AllocateRingBuffer ch h).2.1 with
        token := (h.token + 1) % 2147483648 } hu1 hr1
  dsimp only
  split
  · next hz =>
    have hfin := Finish_Frame now
      (WaitForAvailableEntries now ch kSetTokenEntries oracle
        { (AllocateRingBuffer ch h).2.1 with
            token := (h.token + 1) % 2147483648 }).2.2.1
      { (WaitForAvailableEntries now ch kSetTokenEntries oracle
          { (AllocateRingBuffer ch h).2.1 with
              token := (h.token + 1) % 2147483648 }).2.1 with
          put := (WaitForAvailableEntries now ch kSetTokenEntries oracle
            { (AllocateRingBuffer ch h).2.1 with
                token := (h.token + 1) % 2147483648 }).2.1.put
                  + kSetTokenEntries }
    refine ⟨?_, ?_⟩ <;>
      · rw [hfin.2.1]
        dsimp only
        rw [htk]
  · exact ⟨rfl, htk⟩

theorem AllocateRingBuffer_usable_mono (ch : Chan) (h : CommandBufferHelper)
    (hu0 : (AllocateRingBuffer ch h).2.1.usable = true) : h.usable = true := by
  cases hu : h.usable with
  | true => rfl
  | false =>
    rw [AllocateRingBuffer_unusable ch h hu] at hu0
    exact absurd hu0 (by simp [hu])

theorem WaitForAvailableEntries_usable_mono (now : Int) (ch : Chan)
    (count : Int) (oracle : List CBState) (h : CommandBufferHelper)
    (hu : (WaitForAvailableEntries now ch count oracle h).2.1.usable = true) :
    h.usable = true := by
  apply AllocateRingBuffer_usable_mono ch h
  rcases hA : AllocateRingBuffer ch h with ⟨ok, h0, evA⟩
  unfold WaitForAvailableEntries at hu
  rw [hA] at hu
  dsimp only at hu
  split at hu
  · simpa using hu
  · next hcond => simpa using hcond

theorem InsertToken_usable_mono (now : Int) (ch : Chan)
    (oracle : List CBState) (h : CommandBufferHelper)
    (hu : (InsertToken now ch oracle h).2.1.usable = true) :
    h.usable = true := by
  apply AllocateRingBuffer_usable_mono ch h
  rcases hA : AllocateRingBuffer ch h with ⟨ok, h0, evA⟩
  unfold InsertToken InsertTokenCont at hu
  rw [hA] at hu
  dsimp only at hu
  split at hu
  · simpa using hu
  · next hcond => simpa using hcond

theorem WaitForToken_usable (now t : Int) (oracle : List CBState)
    (h : CommandBufferHelper) :
    (WaitForToken now t oracle h).2.1.usable = h.usable := by
  unfold WaitForToken
  split
  · rfl
  · split
    · rfl
    · split
      · rfl
      · exact (WaitForTokenLoop_Frame now t oracle h).1

theorem Finish_usable (now : Int) (oracle : List CBState)
    (h : CommandBufferHelper) :
    (Finish now oracle h).2.1.usable = h.usable :=
  (Finish_Frame now oracle h).1

theorem FreeResources_usable (h : CommandBufferHelper) :
    (FreeResources h).1.usable = h.usable := by
  unfold FreeResources
  split <;> rfl

/-- Any `Finish` that reports success leaves the buffer drained. -/
theorem Finish_drained (now : Int) (oracle : List CBState)
    (h : CommandBufferHelper) (res : Option Bool) (h' : CommandBufferHelper)
    (rest : List CBState) (evs : List Ev)
    (he : Finish now oracle h = (res, h', rest, evs))
    (hres : res = some true) : h'.put = h'.get_offset := by
  subst hres
  unfold Finish at he
  split at he
  · simp only [Prod.mk.injEq] at he
    exact absurd he.1 (by simp)
  · split at he
    · next hpg =>
      simp only [Prod.mk.injEq] at he
      rw [← he.2.1]
      exact hpg
    · exact FinishLoop_drained now oracle h h' rest evs he

/-- The no-op fill advances put across exactly the requested entries, and
every chunk it writes lies inside that range. -/
theorem fillNoops_spec :
    ∀ (n : Nat) (p : Int),
    (fillNoops p n).1 = p + n ∧
    (∀ o c, Ev.noopWrite o c ∈ (fillNoops p n).2 →
       p ≤ o ∧ o + c ≤ p + n ∧ 1 ≤ c) := by
  intro n
  induction n using Nat.strong_induction_on with
  | _ n ih =>
    match n with
    | 0 =>
      intro p
      constructor
      · simp [fillNoops]
      · intro o c hm
        simp [fillNoops] at hm
    | Nat.succ m =>
      intro p
      have hsk : 1 ≤ min kMaxSize.toNat (Nat.succ m) :=
        le_min (by decide) (Nat.succ_le_succ (Nat.zero_le m))
      have hskn : min kMaxSize.toNat (Nat.succ m) ≤ Nat.succ m :=
        min_le_right _ _
      rw [fillNoops]
      dsimp only
      generalize hk : min kMaxSize.toNat (Nat.succ m) = k at hsk hskn ⊢
      have hrec := ih (Nat.succ m - k) (by omega) (p + (k : Int))
      constructor
      · rw [hrec.1]
        omega
      · intro o c hm
        simp only [List.mem_cons, Ev.noopWrite.injEq] at hm
        cases hm with
        | inl hm =>
          obtain ⟨ho1, ho2⟩ := hm
          refine ⟨?_, ?_, ?_⟩ <;> omega
        | inr hm =>
          have hb := hrec.2 o c hm
          obtain ⟨hb1, hb2, hb3⟩ := hb
          refine ⟨by omega, by omega, hb3⟩

/-- The wrap-wait loop postcondition: when it lets the no-op fill proceed
the freshly observed get has wrapped into `[1, put]`; all its events are
Channel calls; and it keeps the put cursor within the ring. -/
theorem WrapWaitLoop_post (now : Int) :
    ∀ (oracle : List CBState) (h : CommandBufferHelper),
    (∀ r ∈ oracle, 0 ≤ r.get_offset) → 0 ≤ h.get_offset →
    ∀ res h1 rest evs, WrapWaitLoop now oracle h = (res, h1, rest, evs) →
      (res = some true → 1 ≤ h1.get_offset ∧ h1.get_offset ≤ h1.put) ∧
      (∀ e ∈ evs, e.isChannelCall = true) ∧
      (0 ≤ h.put → h.put ≤ h.total_entry_count →
         0 ≤ h1.put ∧ h1.put ≤ h1.total_entry_count) := by
  intro oracle
  induction oracle with
  | nil =>
    intro h hwf hg0 res h1 rest evs he
    simp only [WrapWaitLoop] at he
    split at he
    · simp only [Prod.mk.injEq] at he
      obtain ⟨hres, hh, hrest, hevs⟩ := he
      subst hh
      refine ⟨?_, ?_, fun a b => ⟨a, b⟩⟩
      · intro hst; rw [hst] at hres; exact absurd hres (by simp)
      · intro e hm; rw [← hevs] at hm; simp at hm
    · next hcond =>
      simp only [Prod.mk.injEq] at he
      obtain ⟨hres, hh, hrest, hevs⟩ := he
      subst hh
      push_neg at hcond
      refine ⟨?_, ?_, fun a b => ⟨a, b⟩⟩
      · intro _
        exact ⟨by omega, by omega⟩
      · intro e hm; rw [← hevs] at hm; simp at hm
  | cons r rs ih =>
    intro h hwf hg0 res h1 rest evs he
    simp only [WrapWaitLoop] at he
    split at he
    · split at he
      · next hok =>
        have hu := FlushSync_usable_of_ok now r h hok
        have hc := FlushSync_cached now r h hu
        have hwr : 0 ≤ (FlushSync now r h).2.1.get_offset := by
          show 0 ≤ (FlushSync now r h).2.1.last_state.get_offset
          rw [hc]
          exact hwf r (by simp)
        have hk := ih (FlushSync now r h).2.1
          (fun x hx => hwf x (by simp [hx])) hwr
          (WrapWaitLoop now rs (FlushSync now r h).2.1).1
          (WrapWaitLoop now rs (FlushSync now r h).2.1).2.1
          (WrapWaitLoop now rs (FlushSync now r h).2.1).2.2.1
          (WrapWaitLoop now rs (FlushSync now r h).2.1).2.2.2 rfl
        simp only [Prod.mk.injEq] at he
        obtain ⟨hres, hh1, hrest, hevs⟩ := he
        subst hres hh1
        refine ⟨hk.1, ?_, ?_⟩
        · intro e hm
          rw [← hevs] at hm
          rcases List.mem_append.mp hm with hm1 | hm2
          · exact FlushSync_events now r h e hm1
          · exact hk.2.1 e hm2
        · intro hp0 hpt
          have hb := FlushSync_put_bound now r h hp0 hpt
          exact hk.2.2 hb.1 hb.2
      · simp only [Prod.mk.injEq] at he
        obtain ⟨hres, hh1, hrest, hevs⟩ := he
        subst hh1
        refine ⟨?_, ?_, ?_⟩
        · intro hst; rw [hst] at hres; exact absurd hres (by simp)
        · intro e hm; rw [← hevs] at hm
          exact FlushSync_events now r h e hm
        · intro hp0 hpt
          exact FlushSync_put_bound now r h hp0 hpt
    · next hcond =>
      simp only [Prod.mk.injEq] at he
      obtain ⟨hres, hh, hrest, hevs⟩ := he
      subst hh
      push_neg at hcond
      refine ⟨?_, ?_, fun a b => ⟨a, b⟩⟩
      · intro _
        exact ⟨by omega, by omega⟩
      · intro e hm; rw [← hevs] at hm; simp at hm

/-- Unfolding of the wrap branch of `WaitForAvailableEntries` when the wait
loop lets the fill proceed: no-op padding over the tail, put reset to 0,
then the ordinary acquisition path. -/
theorem WaitForAvailableEntries_wrap_filled (now : Int) (ch : Chan)
    (count : Int) (oracle : List CBState) (h : CommandBufferHelper)
    (hu : h.usable = true) (hr : h.HaveRingBuffer = true)
    (hwrap : h.put + count > h.total_entry_count)
    (h1 : CommandBufferHelper) (rest : List CBState) (evW : List Ev)
    (hW : WrapWaitLoop now oracle h = (some true, h1, rest, evW)) :
    WaitForAvailableEntries now ch count oracle h =
      (toAvail (AcquireEntries now count rest { h1 with put := 0 }).1,
       (AcquireEntries now count rest { h1 with put := 0 }).2.1,
       (AcquireEntries now count rest { h1 with put := 0 }).2.2.1,
       evW ++ (fillNoops h1.put (h1.total_entry_count - h1.put).toNat).2
           ++ (AcquireEntries now count rest { h1 with put := 0 }).2.2.2) := by
  unfold WaitForAvailableEntries
  rw [AllocateRingBuffer_noop ch h hu hr]
  dsimp only
  rw [if_neg (by simp [hu] : ¬(!h.usable) = true), if_pos hwrap, hW]
  simp

/-- Unfolding of the wrap branch of `WaitForAvailableEntries` when the wait
loop does not let the fill proceed: the operation returns with the loop's
events only — no no-op padding is written. -/
theorem WaitForAvailableEntries_wrap_blocked (now : Int) (ch : Chan)
    (count : Int) (oracle : List CBState) (h : CommandBufferHelper)
    (hu : h.usable = true) (hr : h.HaveRingBuffer = true)
    (hwrap : h.put + count > h.total_entry_count)
    (res : Option Bool) (h1 : CommandBufferHelper) (rest : List CBState)
    (evW : List Ev)
    (hW : WrapWaitLoop now oracle h = (res, h1, rest, evW))
    (hne : res ≠ some true) :
    WaitForAvailableEntries now ch count oracle h =
      ((if res = none then AvailRes.noFuel else AvailRes.flushFailed),
       h1, rest, evW) := by
  unfold WaitForAvailableEntries
  rw [AllocateRingBuffer_noop ch h hu hr]
  dsimp only
  rw [if_neg (by simp [hu] : ¬(!h.usable) = true), if_pos hwrap, hW]
  cases res with
  | none => simp
  | some b =>
    cases b with
    | false => simp
    | true => exact absurd rfl hne

end CommandBufferHelper

end Gpu

/-! The claim theorems. -/

open Gpu Gpu.CommandBufferHelper

/-- Claim C1, counterexample: on the claim's own instance — capacity 8,
put 3, `last_put_sent` 3 after a flush, service-reported get 3, usable
helper with ring allocated — `CalcImmediateEntries` reports 5 writable
entries (the value of the claim's general formula), not the claimed 4; with
the default automatic-flush limiting active it reports 0, also not 4. -/
theorem C1_counterexample :
    scenarioA.usable = true ∧ scenarioA.HaveRingBuffer = true ∧
    scenarioA.total_entry_count = 8 ∧ scenarioA.put = 3 ∧
    scenarioA.get_offset = 3 ∧ scenarioA.last_put_sent = 3 ∧
    (CalcImmediateEntries 0 scenarioA).immediate_entry_count = 5 ∧
    (CalcImmediateEntries 0 scenarioA).immediate_entry_count ≠ 4 ∧
    (CalcImmediateEntries 0
       { scenarioA with
           flush_automatically := true }).immediate_entry_count = 0 := by
  decide

/-- Claim C1 (amended): with automatic flushing disabled,
`CalcImmediateEntries` on a usable helper with ring allocated stores exactly
the pure function of the current cursors — `get − put − 1` when
`get > put`, else `capacity − put` minus one slot exactly when `get == 0`;
in the claim's instance (capacity 8, put 3, get 3) that value is 5, not
4. -/
theorem C1_writable_formula (w : Int) (h : Gpu.CommandBufferHelper)
    (hu : h.usable = true) (hr : h.HaveRingBuffer = true)
    (hf : h.flush_automatically = false) :
    (CalcImmediateEntries w h).immediate_entry_count =
      (if h.get_offset > h.put then h.get_offset - h.put - 1
       else h.total_entry_count - h.put -
         (if h.get_offset = 0 then 1 else 0)) := by
  simp [CalcImmediateEntries, calcImmediate, hu, hr, hf]

/-- Witness for C1: the amended formula applied to the claim's instance
yields 5. -/
theorem C1_witness :
    (CalcImmediateEntries 0 scenarioA).immediate_entry_count = 5 := by
  rw [C1_writable_formula 0 scenarioA (by decide) (by decide) (by decide)]
  decide

/-- Claim C4: whenever the token-wait loop is still waiting (the service's
acknowledged token is below the target) and observes the ring empty
(`get == put`), it aborts at once with the fatal log — no further flush —
both at any loop iteration and for a `WaitForToken` call on a usable,
allocated helper whose target is a valid issued token. -/
theorem C4_empty_ring_fatal (now t : Int) (oracle : List CBState)
    (h : Gpu.CommandBufferHelper) :
    (h.last_token_read < t → h.get_offset = h.put →
      WaitForTokenLoop now t oracle h =
        (Gpu.CommandBufferHelper.WaitRes.fatal, h, oracle, [Gpu.Ev.fatalLog])) ∧
    (h.usable = true → h.HaveRingBuffer = true → 0 ≤ t → t ≤ h.token →
     h.last_token_read < t → h.get_offset = h.put →
      WaitForToken now t oracle h =
        (Gpu.CommandBufferHelper.WaitRes.fatal, h, oracle,
         [Gpu.Ev.fatalLog])) := by
  constructor
  · intro hlt hge
    cases oracle with
    | nil => simp [WaitForTokenLoop, hlt, hge]
    | cons r rs => simp [WaitForTokenLoop, hlt, hge]
  · intro hu hr h0 hle hlt hge
    have h1 : ¬t < 0 := by omega
    have h2 : ¬t > h.token := by omega
    unfold WaitForToken
    rw [if_neg (by simp [hu, hr] : ¬(!h.usable || !h.HaveRingBuffer) = true),
        if_neg h1, if_neg h2]
    cases oracle with
    | nil => simp [WaitForTokenLoop, hlt, hge]
    | cons r rs => simp [WaitForTokenLoop, hlt, hge]

/-- Witness for C4: a helper that issued token 1, never acknowledged, with
an empty ring (`get == put == 0`) — the wait aborts fatally. -/
theorem C4_witness :
    WaitForToken 0 1 [] waitingEmpty =
      (Gpu.CommandBufferHelper.WaitRes.fatal, waitingEmpty, [],
       [Gpu.Ev.fatalLog]) :=
  (C4_empty_ring_fatal 0 1 [] waitingEmpty).2 (by decide) (by decide)
    (by decide) (by decide) (by decide) (by decide)

/-- Claim C5: a `WaitForToken` call whose target exceeds the most recently
issued token returns immediately — unchanged helper state, no Channel call,
no events. -/
theorem C5_stale_wait_returns (now t : Int) (oracle : List CBState)
    (h : Gpu.CommandBufferHelper) (hgt : h.token < t) :
    WaitForToken now t oracle h =
      (Gpu.CommandBufferHelper.WaitRes.returned, h, oracle, []) := by
  by_cases hc1 : (!h.usable || !h.HaveRingBuffer) = true
  · unfold WaitForToken
    rw [if_pos hc1]
  · unfold WaitForToken
    rw [if_neg hc1]
    by_cases hc2 : t < 0
    · rw [if_pos hc2]
    · rw [if_neg hc2, if_pos hgt]

/-- Witness for C5: `WaitForToken(5)` with highest issued token 3 returns
immediately. -/
theorem C5_witness :
    WaitForToken 0 5 [] issuedThree =
      (Gpu.CommandBufferHelper.WaitRes.returned, issuedThree, [], []) :=
  C5_stale_wait_returns 0 5 [] issuedThree (by decide)

/-- Claim C6, counterexample: with the identical positive backlog of 2
pending entries out of 32, the code forces a flush (writable count 0) when
the service has caught up (`get == last_put_sent`, divisor
`kAutoFlushSmall`) but not when it is busy (divisor `kAutoFlushBig`): the
caught-up divisor is the LARGER one (16 versus 2), refuting the claim that
the divisor is smaller when the service has caught up. -/
theorem C6_counterexample :
    idleBacklog.get_offset = idleBacklog.last_put_sent ∧
    busyBacklog.get_offset ≠ busyBacklog.last_put_sent ∧
    (idleBacklog.put + idleBacklog.total_entry_count
        - idleBacklog.last_put_sent) % idleBacklog.total_entry_count =
      (busyBacklog.put + busyBacklog.total_entry_count
        - busyBacklog.last_put_sent) % busyBacklog.total_entry_count ∧
    (CalcImmediateEntries 0 idleBacklog).immediate_entry_count = 0 ∧
    (CalcImmediateEntries 0 busyBacklog).immediate_entry_count = 14 ∧
    kAutoFlushSmall > kAutoFlushBig := by
  decide

/-- Claim C6 (amended): with automatic flushing enabled the controller
tracks `pending = (put + capacity − last_put_sent) mod capacity`, and once
pending is positive and reaches `capacity / N` the reported writable count
drops to zero; the divisor N is `kAutoFlushSmall = 16` — the larger divisor,
hence the lower threshold — when the service has fully caught up
(`get == last_put_sent`) and `kAutoFlushBig = 2` otherwise. -/
theorem C6_auto_flush_threshold (w : Int) (h : Gpu.CommandBufferHelper)
    (hu : h.usable = true) (hr : h.HaveRingBuffer = true)
    (ha : h.flush_automatically = true)
    (hp : (h.put + h.total_entry_count - h.last_put_sent)
        % h.total_entry_count > 0)
    (hl : (h.put + h.total_entry_count - h.last_put_sent)
        % h.total_entry_count ≥
      h.total_entry_count /
        (if h.get_offset = h.last_put_sent then kAutoFlushSmall
         else kAutoFlushBig)) :
    (CalcImmediateEntries w h).immediate_entry_count = 0 ∧
    kAutoFlushSmall = 16 ∧ kAutoFlushBig = 2 := by
  refine ⟨?_, rfl, rfl⟩
  simp [CalcImmediateEntries, calcImmediate, hu, hr, ha, hp, hl]

/-- Witness for C6: the caught-up helper with backlog 2 of 32 has its
writable count forced to zero. -/
theorem C6_witness :
    (CalcImmediateEntries 0 idleBacklog).immediate_entry_count = 0 :=
  (C6_auto_flush_threshold 0 idleBacklog (by decide) (by decide) (by decide)
    (by decide) (by decide)).1

/-- Claim C7: `Finish` drains the buffer — an unusable helper fails at
once; `put == get` on entry succeeds at once with no Channel call; whenever
it reports success the final state satisfies `put == get`; and a flush
reporting a service error aborts the loop immediately with failure after
that single synchronous flush. -/
theorem C7_finish_drains (now : Int) (oracle : List CBState)
    (h : Gpu.CommandBufferHelper) :
    (h.usable = false → Finish now oracle h = (some false, h, oracle, [])) ∧
    (h.usable = true → h.put = h.get_offset →
       Finish now oracle h = (some true, h, oracle, [])) ∧
    (∀ h' rest evs, Finish now oracle h = (some true, h', rest, evs) →
       h'.put = h'.get_offset) ∧
    (∀ r rs, oracle = r :: rs → h.usable = true → h.put ≠ h.get_offset →
       r.error = true →
       Finish now oracle h =
         (some false, (FlushSync now r h).2.1, rs, (FlushSync now r h).2.2)) := by
  refine ⟨?_, ?_, ?_, ?_⟩
  · intro hu
    simp [Finish, hu]
  · intro hu hpg
    simp [Finish, hu, hpg]
  · intro h' rest evs he
    exact Finish_drained now oracle h (some true) h' rest evs he rfl
  · intro r rs ho hu hne herr
    subst ho
    have hloop := FinishLoop_failed_first now r rs h hu herr
    unfold Finish
    rw [if_neg (by simp [hu] : ¬(!h.usable) = true), if_neg hne]
    exact hloop

/-- Witness for C7: a drained helper finishes successfully at once, and a
helper with outstanding work whose first poll reports an error aborts with
failure. -/
theorem C7_witness :
    Finish 0 [] drainedHelper = (some true, drainedHelper, [], []) ∧
    Finish 0 [errResp] liveHelper =
      (some false, (FlushSync 0 errResp liveHelper).2.1, [],
       (FlushSync 0 errResp liveHelper).2.2) := by
  constructor
  · exact (C7_finish_drains 0 [] drainedHelper).2.1 (by decide) (by decide)
  · exact (C7_finish_drains 0 [errResp] liveHelper).2.2.2 errResp [] rfl
      (by decide) (by decide) (by decide)

/-- Claim C9, counterexample: on an unusable helper with unsent work
(`last_put_sent != put`), `Flush` performs no Channel call and changes
nothing — the claim's unconditional "when there is unsent work, Flush hands
the current put to the Channel" fails without the usable guard. -/
theorem C9_counterexample :
    deadHelper.usable = false ∧
    deadHelper.last_put_sent ≠ deadHelper.put ∧
    deadHelper.last_put_sent ≠ wrapPut deadHelper ∧
    Flush 0 deadHelper = (deadHelper, []) := by
  decide

/-- Claim C9 (amended): `Flush` with no unsent work (comparing against the
put cursor normalized at capacity to 0) performs no Channel call and leaves
every field but the put wrap unchanged; on a USABLE helper with unsent work
it hands the wrapped put to the Channel in a single asynchronous call,
records the send time and advances `last_put_sent`, without waiting. -/
theorem C9_flush_elision_and_send (now : Int) (h : Gpu.CommandBufferHelper) :
    (h.last_put_sent = wrapPut h →
       Flush now h = ({ h with put := wrapPut h }, [])) ∧
    (h.usable = true → h.last_put_sent ≠ wrapPut h →
       (Flush now h).2 = [Gpu.Ev.flushCall (wrapPut h)] ∧
       (Flush now h).1.last_put_sent = wrapPut h ∧
       (Flush now h).1.last_flush_time = now ∧
       (Flush now h).1.put = wrapPut h) := by
  constructor
  · exact Flush_elide now h
  · intro hu hw
    rw [Flush_send now h hu hw]
    exact ⟨rfl, rfl, rfl, rfl⟩

/-- Witness for C9: the already-flushed helper elides (no event, state kept
up to the put wrap), while the helper with unsent work emits exactly one
asynchronous flush of put 2. -/
theorem C9_witness :
    Flush 7 drainedHelper = (drainedHelper, []) ∧
    (Flush 7 sendHelper).2 = [Gpu.Ev.flushCall 2] := by
  constructor
  · have he := (C9_flush_elision_and_send 7 drainedHelper).1 (by decide)
    rw [he]
    decide
  · have hs := ((C9_flush_elision_and_send 7 sendHelper).2 (by decide)
      (by decide)).1
    rw [hs]
    decide

/-- Claim C10: `WaitForToken` on any negative token returns immediately with
the helper untouched, the oracle unconsumed and no Channel call; and the
token counter itself always advances as a non-negative 31-bit value — from
any in-range token, the value `InsertToken` returns stays in
`[0, 2^31)`. -/
theorem C10_negative_token_guard (now t : Int) (oracle : List CBState)
    (ch : Chan) (h : Gpu.CommandBufferHelper) :
    (t < 0 → WaitForToken now t oracle h =
       (Gpu.CommandBufferHelper.WaitRes.returned, h, oracle, [])) ∧
    (0 ≤ h.token → h.token < 2147483648 →
       0 ≤ (InsertToken now ch oracle h).1 ∧
       (InsertToken now ch oracle h).1 < 2147483648) := by
  constructor
  · intro ht
    by_cases hc1 : (!h.usable || !h.HaveRingBuffer) = true
    · unfold WaitForToken
      rw [if_pos hc1]
    · unfold WaitForToken
      rw [if_neg hc1, if_pos ht]
  · intro h0 h1
    cases hu0 : (AllocateRingBuffer ch h).2.1.usable with
    | true =>
      have hv := (InsertToken_val now ch oracle h hu0).1
      rw [hv]
      constructor
      · exact Int.emod_nonneg _ (by norm_num)
      · exact Int.emod_lt_of_pos _ (by norm_num)
    | false =>
      have heq : InsertToken now ch oracle h =
          ((AllocateRingBuffer ch h).2.1.token,
           (AllocateRingBuffer ch h).2.1, oracle,
           (AllocateRingBuffer ch h).2.2) := by
        unfold InsertToken InsertTokenCont
        dsimp only
        rw [if_pos (by simp [hu0] : (!(AllocateRingBuffer ch h).2.1.usable) = true)]
      rw [heq, AllocateRingBuffer_token ch h]
      exact ⟨h0, h1⟩

/-- Witness for C10: waiting on token −1 returns immediately, and an
insertion from token 3 yields a non-negative token. -/
theorem C10_witness :
    WaitForToken 0 (-1) [] liveHelper =
      (Gpu.CommandBufferHelper.WaitRes.returned, liveHelper, [], []) ∧
    0 ≤ (InsertToken 0 okChan [] issuedThree).1 := by
  constructor
  · exact (C10_negative_token_guard 0 (-1) [] okChan liveHelper).1 (by decide)
  · exact ((C10_negative_token_guard 0 0 [] okChan issuedThree).2
      (by decide) (by decide)).1

/-- Claim C8, counterexample: a Channel error surfaced through a
synchronous poll does NOT clear the usable flag — `FlushSync` on a usable
helper with an error-reporting response returns failure yet leaves
`usable = true`, refuting the claim that any polled Channel error is a
trigger of the Usable → Unusable transition. -/
theorem C8_counterexample :
    liveHelper.usable = true ∧ errResp.error = true ∧
    (FlushSync 0 errResp liveHelper).1 = false ∧
    (FlushSync 0 errResp liveHelper).2.1.usable = true := by
  decide

/-- Claim C8 (amended): usability is a one-way state machine — it starts
true; within the helper it is cleared by a failed ring allocation or by the
explicit `ClearUsable` teardown, while a polled Channel error only makes
the flush fail and latches the sticky `context_lost` flag; no helper
operation ever sets usability back to true; and once unusable, every
allocation attempt returns failure immediately with no Channel call. -/
theorem C8_usable_one_way :
    mk0.usable = true ∧
    (∀ ch h, h.usable = true → h.HaveRingBuffer = false → ch.createId < 0 →
       (AllocateRingBuffer ch h).1 = false ∧
       (AllocateRingBuffer ch h).2.1.usable = false) ∧
    (∀ ch h, h.usable = false → AllocateRingBuffer ch h = (false, h, [])) ∧
    (∀ h, (ClearUsable h).usable = false) ∧
    (∀ w h, (CalcImmediateEntries w h).usable = h.usable) ∧
    (∀ e h, (SetAutomaticFlushes e h).usable = h.usable) ∧
    (∀ now r h, (FlushSync now r h).2.1.usable = h.usable) ∧
    (∀ now h, (Flush now h).1.usable = h.usable) ∧
    (∀ now oracle h, (Finish now oracle h).2.1.usable = h.usable) ∧
    (∀ now t oracle h, (WaitForToken now t oracle h).2.1.usable = h.usable) ∧
    (∀ h, (FreeResources h).1.usable = h.usable) ∧
    (∀ ch h, (AllocateRingBuffer ch h).2.1.usable = true →
       h.usable = true) ∧
    (∀ now ch count oracle h,
       (WaitForAvailableEntries now ch count oracle h).2.1.usable = true →
       h.usable = true) ∧
    (∀ now ch oracle h,
       (InsertToken now ch oracle h).2.1.usable = true → h.usable = true) ∧
    (∀ e h, h.context_lost = true →
       (IsContextLost e h).2.context_lost = true) := by
  refine ⟨rfl, ?_, ?_, ?_, ?_, ?_, ?_, ?_, ?_, ?_, ?_, ?_, ?_, ?_, ?_⟩
  · intro ch h hu hr hc
    rw [AllocateRingBuffer_createFail ch h hu hr hc]
    exact ⟨rfl, rfl⟩
  · intro ch h hu
    exact AllocateRingBuffer_unusable ch h hu
  · intro h
    rfl
  · intro w h
    rfl
  · intro e h
    rfl
  · intro now r h
    exact (FlushSync_Frame now r h).1
  · intro now h
    exact (Flush_Frame now h).1
  · intro now oracle h
    exact Finish_usable now oracle h
  · intro now t oracle h
    exact WaitForToken_usable now t oracle h
  · intro h
    exact FreeResources_usable h
  · intro ch h
    exact AllocateRingBuffer_usable_mono ch h
  · intro now ch count oracle h
    exact WaitForAvailableEntries_usable_mono now ch count oracle h
  · intro now ch oracle h
    exact InsertToken_usable_mono now ch oracle h
  · intro e h hcl
    simp [IsContextLost, hcl]

/-- Witness for C8: a fresh helper whose region creation fails becomes
unusable, and its next allocation attempt fails immediately with no Channel
call. -/
theorem C8_witness :
    (AllocateRingBuffer badChan freshHelper).2.1.usable = false ∧
    AllocateRingBuffer badChan (AllocateRingBuffer badChan freshHelper).2.1 =
      (false, (AllocateRingBuffer badChan freshHelper).2.1, []) := by
  have hm := C8_usable_one_way
  have hfail := hm.2.1 badChan freshHelper (by decide) (by decide) (by decide)
  exact ⟨hfail.2, hm.2.2.1 badChan _ hfail.2⟩

/-- Claim C2: in a wraparound reservation (`put + count > capacity` on a
usable allocated helper), the wait loop runs FIRST and no no-op padding is
written unless it ends with the service's observed get wrapped into
`[1, put]` (get has advanced past put); when it does, the helper fills
exactly the tail from put to the physical end with no-op records — every
chunk inside `[put, capacity)` — resets put to 0 and proceeds to the
ordinary acquisition path. -/
theorem C2_wrap_safety (now : Int) (ch : Chan) (count : Int)
    (oracle : List CBState) (h : Gpu.CommandBufferHelper)
    (hwf : ∀ r ∈ oracle, 0 ≤ r.get_offset) (hg0 : 0 ≤ h.get_offset)
    (hp0 : 0 ≤ h.put) (hpt : h.put ≤ h.total_entry_count) :
    (∀ h1 rest evW,
       WrapWaitLoop now oracle h = (some true, h1, rest, evW) →
       1 ≤ h1.get_offset ∧ h1.get_offset ≤ h1.put ∧
       ∀ o c, Gpu.Ev.noopWrite o c ∉ evW) ∧
    (h.usable = true → h.HaveRingBuffer = true →
     h.put + count > h.total_entry_count →
     (∀ res h1 rest evW,
        WrapWaitLoop now oracle h = (res, h1, rest, evW) → res ≠ some true →
        ∀ o c, Gpu.Ev.noopWrite o c ∉
          (WaitForAvailableEntries now ch count oracle h).2.2.2) ∧
     (∀ h1 rest evW,
        WrapWaitLoop now oracle h = (some true, h1, rest, evW) →
        WaitForAvailableEntries now ch count oracle h =
          (toAvail (AcquireEntries now count rest { h1 with put := 0 }).1,
           (AcquireEntries now count rest { h1 with put := 0 }).2.1,
           (AcquireEntries now count rest { h1 with put := 0 }).2.2.1,
           evW ++ (fillNoops h1.put (h1.total_entry_count - h1.put).toNat).2
               ++ (AcquireEntries now count rest
                     { h1 with put := 0 }).2.2.2) ∧
        (fillNoops h1.put (h1.total_entry_count - h1.put).toNat).1 =
          h1.total_entry_count ∧
        (∀ o c, Gpu.Ev.noopWrite o c ∈
            (fillNoops h1.put (h1.total_entry_count - h1.put).toNat).2 →
            h1.put ≤ o ∧ o + c ≤ h1.total_entry_count))) := by
  constructor
  · intro h1 rest evW hW
    have hp := WrapWaitLoop_post now oracle h hwf hg0 (some true) h1 rest
      evW hW
    refine ⟨(hp.1 rfl).1, (hp.1 rfl).2, ?_⟩
    intro o c hm
    have hch := hp.2.1 _ hm
    simp [Gpu.Ev.isChannelCall] at hch
  · intro hu hr hwrap
    constructor
    · intro res h1 rest evW hW hne
      rw [WaitForAvailableEntries_wrap_blocked now ch count oracle h hu hr
        hwrap res h1 rest evW hW hne]
      intro o c hm
      have hp := WrapWaitLoop_post now oracle h hwf hg0 res h1 rest evW hW
      have hch := hp.2.1 _ hm
      simp [Gpu.Ev.isChannelCall] at hch
    · intro h1 rest evW hW
      have hp := WrapWaitLoop_post now oracle h hwf hg0 (some true) h1 rest
        evW hW
      have hput := hp.2.2 hp0 hpt
      refine ⟨WaitForAvailableEntries_wrap_filled now ch count oracle h hu
        hr hwrap h1 rest evW hW, ?_, ?_⟩
      · have hf := (fillNoops_spec (h1.total_entry_count - h1.put).toNat
          h1.put).1
        rw [hf, Int.toNat_of_nonneg (by omega)]
        omega
      · intro o c hm
        have hb := (fillNoops_spec (h1.total_entry_count - h1.put).toNat
          h1.put).2 o c hm
        rw [Int.toNat_of_nonneg (by omega)] at hb
        exact ⟨hb.1, by omega⟩

/-- Witness for C2: Scenario B's helper (capacity 8, put 6, service get
still at 7) with an oracle whose one response reports get 2 — the wait loop
ends with the observed get in `[1, put]`. -/
theorem C2_witness :
    1 ≤ (WrapWaitLoop 0 [g2resp] wrapHelper).2.1.get_offset ∧
    (WrapWaitLoop 0 [g2resp] wrapHelper).2.1.get_offset ≤
      (WrapWaitLoop 0 [g2resp] wrapHelper).2.1.put := by
  have hfst : (WrapWaitLoop 0 [g2resp] wrapHelper).1 = some true := by decide
  have heq : WrapWaitLoop 0 [g2resp] wrapHelper =
      (some true, (WrapWaitLoop 0 [g2resp] wrapHelper).2.1,
       (WrapWaitLoop 0 [g2resp] wrapHelper).2.2.1,
       (WrapWaitLoop 0 [g2resp] wrapHelper).2.2.2) := by
    rw [← hfst]
  have hc := (C2_wrap_safety 0 okChan 4 [g2resp] wrapHelper
    (by decide) (by decide) (by decide) (by decide)).1 _ _ _ heq
  exact ⟨hc.1, hc.2.1⟩

/-- Claim C3: on a usable helper with ring installed and an in-range token,
`InsertToken` returns the 31-bit advance of the previous token (recorded in
the state), so successive returned values strictly increase below the wrap
bound; and when the counter wraps to 0 the entire result is that of a full
synchronous drain (`Finish`) run after the token write — so 0 is handed out
only after that drain, which, when it succeeds, has the service consume
everything (`put == get`). -/
theorem C3_token_monotonic (now : Int) (ch : Chan) (oracle : List CBState)
    (h : Gpu.CommandBufferHelper) (hu : h.usable = true)
    (hr : h.HaveRingBuffer = true) (h0 : 0 ≤ h.token) :
    (InsertToken now ch oracle h).1 = (h.token + 1) % 2147483648 ∧
    (InsertToken now ch oracle h).2.1.token =
      (InsertToken now ch oracle h).1 ∧
    (h.token < 2147483647 →
       (InsertToken now ch oracle h).1 = h.token + 1 ∧
       h.token < (InsertToken now ch oracle h).1) ∧
    (h.token = 2147483647 →
       (InsertToken now ch oracle h).1 = 0 ∧
       ∃ w f,
         WaitForAvailableEntries now ch kSetTokenEntries oracle
           { h with token := 0 } = w ∧
         Finish now w.2.2.1
           { w.2.1 with put := w.2.1.put + kSetTokenEntries } = f ∧
         InsertToken now ch oracle h =
           (f.2.1.token, f.2.1, f.2.2.1,
            (w.2.2.2 ++ [Gpu.Ev.tokenWrite 0]) ++ f.2.2.2) ∧
         (f.1 = some true → f.2.1.put = f.2.1.get_offset)) := by
  have hu0 : (AllocateRingBuffer ch h).2.1.usable = true := by
    rw [AllocateRingBuffer_noop ch h hu hr]
    exact hu
  have hval := InsertToken_val now ch oracle h hu0
  refine ⟨hval.1, hval.2.trans hval.1.symm, ?_, ?_⟩
  · intro hlt
    have hm : (h.token + 1) % 2147483648 = h.token + 1 :=
      Int.emod_eq_of_lt (by omega) (by omega)
    constructor
    · rw [hval.1, hm]
    · rw [hval.1, hm]
      omega
  · intro htop
    have hm0 : (h.token + 1) % 2147483648 = 0 := by
      rw [htop]
      decide
    refine ⟨by rw [hval.1, hm0], ?_⟩
    have hle := InsertToken_live_eq now ch oracle h hu hr
    rw [hm0] at hle
    simp only [if_pos rfl] at hle
    refine ⟨_, _, rfl, rfl, ?_, ?_⟩
    · exact hle
    · intro hs
      exact Finish_drained now _ _ _ _ _ _ rfl hs

/-- Witness for C3: inserting from issued token 3 returns 4, a strict
increase. -/
theorem C3_witness :
    (InsertToken 0 okChan [] issuedThree).1 = 4 ∧
    issuedThree.token < (InsertToken 0 okChan [] issuedThree).1 := by
  have hm := C3_token_monotonic 0 okChan [] issuedThree (by decide)
    (by decide) (by decide)
  have hs := hm.2.2.1 (by decide)
  constructor
  · rw [hs.1]
    decide
  · exact hs.2
